import Mathlib

/-!
Shallow embedding of the devbox-update-action core (package parsing, version
comparison, registry update-candidate derivation, retry engine, file mutation
and PR branch management), together with proofs settling the frozen claims.

JavaScript strings are modelled as Lean `String`; machine numbers as `Nat`/`Int`;
thrown exceptions as `Except`; external collaborators (JSON builtins, the
devbox toolchain, git, the GitHub API) as explicitly passed functions.
-/

namespace DevboxAction

/-- Typed errors of the action (`NetworkError`, `ValidationError`, `DevboxError`,
`GitHubError` from `src/types`), carrying their message (and code for
`DevboxError`). -/
inductive JsErr where
  | network (msg : String)
  | validation (msg : String)
  | devbox (msg : String) (code : String)
  | github (msg : String)
deriving Repr, DecidableEq

instance {ε α : Type} [DecidableEq ε] [DecidableEq α] : DecidableEq (Except ε α) := by
  intro x y
  cases x <;> cases y
  case error.error a b =>
    exact if h : a = b then .isTrue (by rw [h]) else .isFalse (by simp [h])
  case ok.ok a b =>
    exact if h : a = b then .isTrue (by rw [h]) else .isFalse (by simp [h])
  case error.ok a b => exact .isFalse (by simp)
  case ok.error a b => exact .isFalse (by simp)

/-! ## Manifest Model (`src/utils/package-parser.ts`) -/

/-- `ParsedPackage` from `package-parser.ts`: `version` is `none` for a missing
(`undefined`) version; `some ""` models the empty-string version JS can produce. -/
structure ParsedPackage where
  name : String
  version : Option String
  fullSpec : String
deriving Repr, DecidableEq

/-- Index of the last occurrence of `c` (models `String.prototype.lastIndexOf`,
with `none` for the JS result `-1`). -/
def lastIdx (c : Char) : List Char → Option Nat
  | [] => none
  | x :: xs =>
    match lastIdx c xs with
    | some i => some (i + 1)
    | none => if x = c then some 0 else none

/-- `parsePackageSpec` from `package-parser.ts`. The scoped-package branch
(`beforeAt.includes('/')`) is kept even though it returns the same record as
the plain branch, mirroring the source. -/
def parsePackageSpec (packageSpec : String) : ParsedPackage :=
  match lastIdx '@' packageSpec.data with
  | none => ⟨packageSpec, none, packageSpec⟩
  | some 0 => ⟨packageSpec, none, packageSpec⟩
  | some atIndex =>
    let beforeAt : String := ⟨packageSpec.data.take atIndex⟩
    let afterAt : String := ⟨packageSpec.data.drop (atIndex + 1)⟩
    if beforeAt.data.contains '/' then
      ⟨beforeAt, some afterAt, packageSpec⟩
    else
      ⟨beforeAt, some afterAt, packageSpec⟩

/-- `createPackageSpec` from `package-parser.ts`; the JS guard `if (!version)`
treats both a missing and an empty version as absent. -/
def createPackageSpec (name : String) (version : Option String) : String :=
  match version with
  | none => name
  | some v => if v = "" then name else name ++ "@" ++ v

/-! ## Version Model (`src/utils/version-compare.ts`) -/

/-- `ParsedVersion` from `version-compare.ts`. -/
structure ParsedVersion where
  major : Nat
  minor : Nat
  patch : Nat
  prerelease : Option String
  build : Option String
  original : String
deriving Repr, DecidableEq

/-- Numeric value of a (non-empty) digit run, models `parseInt` on it. -/
def digitsToNat (l : List Char) : Nat :=
  l.foldl (fun n c => n * 10 + (c.toNat - '0'.toNat)) 0

/-- Deterministic matcher for the anchored semver regex
`^(\d+)(?:\.(\d+))?(?:\.(\d+))?(?:-([^+]+))?(?:\+(.+))?$`:
returns the five capture groups when the whole input matches. -/
def semverMatch (l : List Char) :
    Option (List Char × Option (List Char) × Option (List Char) ×
            Option (List Char) × Option (List Char)) :=
  let (major, r1) := l.span Char.isDigit
  if major = [] then none
  else
    let (minor, r2) :=
      match r1 with
      | '.' :: rest =>
        let (d, r) := rest.span Char.isDigit
        if d = [] then (none, r1) else (some d, r)
      | _ => (none, r1)
    let (patch, r3) :=
      match r2 with
      | '.' :: rest =>
        let (d, r) := rest.span Char.isDigit
        if d = [] then (none, r2) else (some d, r)
      | _ => (none, r2)
    let (prerelease, r4) :=
      match r3 with
      | '-' :: rest =>
        let (p, r) := rest.span (fun c => c ≠ '+')
        if p = [] then (none, r3) else (some p, r)
      | _ => (none, r3)
    let (build, r5) :=
      match r4 with
      | '+' :: rest => if rest = [] then (none, r4) else (some rest, ([] : List Char))
      | _ => (none, r4)
    if r5 = [] then some (major, minor, patch, prerelease, build) else none

/-- Take exactly `n` digits, or fail. -/
def takeDigits : Nat → List Char → Option (List Char × List Char)
  | 0, l => some ([], l)
  | n + 1, c :: r =>
    if c.isDigit then
      match takeDigits n r with
      | some (d, rest) => some (c :: d, rest)
      | none => none
    else none
  | _ + 1, [] => none

/-- Consume one `[.-]` separator when present (the optional `[.-]?` group). -/
def optSep : List Char → List Char
  | '.' :: r => r
  | '-' :: r => r
  | l => l

/-- Deterministic matcher for the date regex `^(\d{4})[.-]?(\d{2})[.-]?(\d{2})$`. -/
def dateMatch (l : List Char) : Option (List Char × List Char × List Char) :=
  match takeDigits 4 l with
  | none => none
  | some (year, r1) =>
    match takeDigits 2 (optSep r1) with
    | none => none
    | some (month, r2) =>
      match takeDigits 2 (optSep r2) with
      | none => none
      | some (day, r3) => if r3 = [] then some (year, month, day) else none

/-- Worker for `digitRuns`: `acc` is the reversed digit run currently open. -/
def digitRunsGo : List Char → List Char → List (List Char)
  | [], acc => if acc = [] then [] else [acc.reverse]
  | c :: r, acc =>
    if c.isDigit then digitRunsGo r (c :: acc)
    else if acc = [] then digitRunsGo r [] else acc.reverse :: digitRunsGo r []

/-- All maximal digit runs of the string, in order (models `match(/\d+/g)`). -/
def digitRuns (l : List Char) : List (List Char) :=
  digitRunsGo l []

/-- Everything after the first `-`, when the string contains one
(models `trimmed.split('-').slice(1).join('-')` under `includes('-')`). -/
def afterFirstDash (l : List Char) : Option (List Char) :=
  if l.contains '-' then some ((l.dropWhile (fun c => c ≠ '-')).drop 1) else none

/-- JavaScript WhiteSpace and LineTerminator characters relevant to
`String.prototype.trim` (ASCII part plus NBSP and BOM). -/
def isJsWhitespace (c : Char) : Bool :=
  c = ' ' ∨ c = '\t' ∨ c = '\n' ∨ c = '\r' ∨ c.toNat = 11 ∨ c.toNat = 12 ∨
  c.toNat = 160 ∨ c.toNat = 65279

/-- Models `String.prototype.trim`. -/
def jsTrim (s : String) : String :=
  ⟨((s.data.dropWhile isJsWhitespace).reverse.dropWhile isJsWhitespace).reverse⟩

/-- `parseVersion` from `version-compare.ts`: the cascading parse
(semver pattern → date pattern → bare integer → digit-run extraction →
opaque-string fallback), failing with `ValidationError` on empty input. -/
def parseVersion (version : String) : Except JsErr ParsedVersion :=
  if version = "" then
    .error (.validation "Version must be a non-empty string")
  else
    let trimmed := jsTrim version
    if trimmed.length = 0 then
      .error (.validation "Version cannot be empty")
    else
      match semverMatch trimmed.data with
      | some (major, minor, patch, prerelease, build) =>
        .ok { major := digitsToNat major
              minor := digitsToNat (minor.getD ['0'])
              patch := digitsToNat (patch.getD ['0'])
              prerelease := prerelease.map (fun p => (⟨p⟩ : String))
              build := build.map (fun b => (⟨b⟩ : String))
              original := trimmed }
      | none =>
        match dateMatch trimmed.data with
        | some (year, month, day) =>
          .ok { major := digitsToNat year, minor := digitsToNat month
                patch := digitsToNat day
                prerelease := none, build := none, original := trimmed }
        | none =>
          if trimmed.data ≠ [] ∧ trimmed.data.all Char.isDigit then
            .ok { major := digitsToNat trimmed.data, minor := 0, patch := 0
                  prerelease := none, build := none, original := trimmed }
          else
            match digitRuns trimmed.data with
            | n0 :: rest =>
              .ok { major := digitsToNat n0
                    minor := digitsToNat ((rest.get? 0).getD ['0'])
                    patch := digitsToNat ((rest.get? 1).getD ['0'])
                    prerelease := (afterFirstDash trimmed.data).map
                      (fun p => (⟨p⟩ : String))
                    build := none, original := trimmed }
            | [] =>
              .ok { major := 0, minor := 0, patch := 0
                    prerelease := some trimmed, build := none
                    original := trimmed }

/-- Character comparison by code point. -/
def chCmp (a b : Char) : Ordering :=
  if a.toNat < b.toNat then .lt else if b.toNat < a.toNat then .gt else .eq

/-- Lexicographic comparison of char lists. -/
def lexCmp : List Char → List Char → Ordering
  | [], [] => .eq
  | [], _ :: _ => .lt
  | _ :: _, [] => .gt
  | a :: as, b :: bs =>
    match chCmp a b with
    | .eq => lexCmp as bs
    | o => o

def ordToInt : Ordering → Int
  | .lt => -1
  | .eq => 0
  | .gt => 1

/-- Models `String.prototype.localeCompare` as the sign of a total string
comparison (V8 returns −1/0/1; we use code-point order as the collation). -/
def localeCmp (a b : String) : Int :=
  ordToInt (lexCmp a.data b.data)

/-- Truthiness of an optional string field (JS: `undefined` and `""` are falsy). -/
def strTruthy : Option String → Option String
  | none => none
  | some s => if s = "" then none else some s

/-- The comparison chain of `compareVersions` after both strings parsed
(major, minor, patch numerically; then prerelease presence; then prerelease
lexically; then the original strings lexically). -/
def compareParsed (v1 v2 : ParsedVersion) : Int :=
  if v1.major ≠ v2.major then (if v1.major < v2.major then -1 else 1)
  else if v1.minor ≠ v2.minor then (if v1.minor < v2.minor then -1 else 1)
  else if v1.patch ≠ v2.patch then (if v1.patch < v2.patch then -1 else 1)
  else
    match strTruthy v1.prerelease, strTruthy v2.prerelease with
    | some _, none => -1
    | none, some _ => 1
    | some p1, some p2 => localeCmp p1 p2
    | none, none => localeCmp v1.original v2.original

/-- `compareVersions` from `version-compare.ts`. -/
def compareVersions (version1 version2 : String) : Except JsErr Int :=
  if version1 = version2 then .ok 0
  else
    match parseVersion version1 with
    | .error e => .error e
    | .ok v1 =>
      match parseVersion version2 with
      | .error e => .error e
      | .ok v2 => .ok (compareParsed v1 v2)

/-! ## Lemmas about the version comparator -/

theorem chCmp_swap (a b : Char) : chCmp b a = (chCmp a b).swap := by
  rcases Nat.lt_trichotomy a.toNat b.toNat with h | h | h
  · simp [chCmp, h, Nat.lt_asymm h, Ordering.swap]
  · simp [chCmp, h, Nat.lt_irrefl, Ordering.swap]
  · simp [chCmp, h, Nat.lt_asymm h, Ordering.swap]

theorem lexCmp_swap (a b : List Char) : lexCmp b a = (lexCmp a b).swap := by
  induction a generalizing b with
  | nil => cases b <;> simp [lexCmp, Ordering.swap]
  | cons x xs ih =>
    cases b with
    | nil => simp [lexCmp, Ordering.swap]
    | cons y ys =>
      have h2 := chCmp_swap x y
      simp only [lexCmp]
      cases h : chCmp x y with
      | lt => rw [h] at h2; rw [h2]; rfl
      | gt => rw [h] at h2; rw [h2]; rfl
      | eq => rw [h] at h2; rw [h2]; exact ih ys

theorem ordToInt_swap (o : Ordering) : ordToInt o.swap = -ordToInt o := by
  cases o <;> rfl

theorem localeCmp_antisymm (a b : String) : localeCmp b a = -localeCmp a b := by
  unfold localeCmp
  rw [lexCmp_swap, ordToInt_swap]

/-- Antisymmetry of one numeric level of the comparison chain. -/
theorem ifne_antisymm (x y : Nat) (e1 e2 : Int) (he : e1 = -e2) :
    (if y ≠ x then (if y < x then (-1 : Int) else 1) else e1) =
      -(if x ≠ y then (if x < y then (-1 : Int) else 1) else e2) := by
  rcases Nat.lt_trichotomy x y with h | h | h
  · rw [if_pos (by omega : y ≠ x), if_neg (by omega : ¬y < x),
      if_pos (by omega : x ≠ y), if_pos h]
    decide
  · rw [if_neg (by omega : ¬y ≠ x), if_neg (by omega : ¬x ≠ y), he]
  · rw [if_pos (by omega : y ≠ x), if_pos h,
      if_pos (by omega : x ≠ y), if_neg (by omega : ¬x < y)]

/-- Antisymmetry of the prerelease/original tie-break of `compareParsed`. -/
theorem preMatch_antisymm (p1 p2 : Option String) (o1 o2 : String) :
    (match strTruthy p2, strTruthy p1 with
     | some _, none => (-1 : Int)
     | none, some _ => 1
     | some a, some b => localeCmp a b
     | none, none => localeCmp o2 o1) =
      -(match strTruthy p1, strTruthy p2 with
        | some _, none => (-1 : Int)
        | none, some _ => 1
        | some a, some b => localeCmp a b
        | none, none => localeCmp o1 o2) := by
  cases strTruthy p1 with
  | none =>
    cases strTruthy p2 with
    | none => exact localeCmp_antisymm o1 o2
    | some b => rfl
  | some a =>
    cases strTruthy p2 with
    | none => rfl
    | some b => exact localeCmp_antisymm a b

theorem compareParsed_antisymm (v1 v2 : ParsedVersion) :
    compareParsed v2 v1 = -compareParsed v1 v2 := by
  unfold compareParsed
  apply ifne_antisymm
  apply ifne_antisymm
  apply ifne_antisymm
  exact preMatch_antisymm v1.prerelease v2.prerelease v1.original v2.original

theorem ordToInt_range (o : Ordering) :
    ordToInt o = -1 ∨ ordToInt o = 0 ∨ ordToInt o = 1 := by
  cases o <;> simp [ordToInt]

theorem localeCmp_range (a b : String) :
    localeCmp a b = -1 ∨ localeCmp a b = 0 ∨ localeCmp a b = 1 :=
  ordToInt_range _

theorem compareParsed_range (v1 v2 : ParsedVersion) :
    compareParsed v1 v2 = -1 ∨ compareParsed v1 v2 = 0 ∨ compareParsed v1 v2 = 1 := by
  unfold compareParsed
  repeat' split
  all_goals first
    | exact Or.inl rfl
    | exact Or.inr (Or.inl rfl)
    | exact Or.inr (Or.inr rfl)
    | apply localeCmp_range

/-- C5: For every pair of version strings, `compareVersions` is antisymmetric
(`compare(a,b) = -compare(b,a)`), reflexive (`compare(a,a) = 0`), and every
successfully returned value lies in `{-1, 0, 1}`. (`compareVersions` is
modelled as `Except`-valued because `parseVersion` throws `ValidationError`
on empty/whitespace-only input; whenever `compare(a,b)` returns a value,
so does `compare(b,a)`, with the opposite sign.) -/
theorem compareVersions_antisymm_refl_range :
    (∀ a b : String, ∀ r : Int, compareVersions a b = .ok r →
      compareVersions b a = .ok (-r) ∧ (r = -1 ∨ r = 0 ∨ r = 1)) ∧
    (∀ a : String, compareVersions a a = .ok 0) := by
  constructor
  · intro a b r h
    by_cases hab : a = b
    · subst hab
      unfold compareVersions at h ⊢
      simp only [if_pos rfl] at h ⊢
      cases h
      exact ⟨rfl, Or.inr (Or.inl rfl)⟩
    · have hba : b ≠ a := fun hh => hab hh.symm
      unfold compareVersions at h ⊢
      rw [if_neg hab] at h
      rw [if_neg hba]
      cases hpa : parseVersion a with
      | error e => rw [hpa] at h; exact absurd h (by simp)
      | ok v1 =>
        rw [hpa] at h
        cases hpb : parseVersion b with
        | error e => rw [hpb] at h; exact absurd h (by simp)
        | ok v2 =>
          rw [hpb] at h
          simp only [Except.ok.injEq] at h
          subst h
          refine ⟨?_, compareParsed_range v1 v2⟩
          simp only [hpa, hpb]
          rw [compareParsed_antisymm v1 v2]
  · intro a
    unfold compareVersions
    simp

/-- Witness for C5 at concrete versions. -/
theorem compareVersions_antisymm_refl_range_witness :
    compareVersions "2.0.0" "1.0.0" = .ok (-(-1 : Int)) ∧
      ((-1 : Int) = -1 ∨ (-1 : Int) = 0 ∨ (-1 : Int) = 1) :=
  compareVersions_antisymm_refl_range.1 "1.0.0" "2.0.0" (-1) (by decide)

/-! ## Lemmas about package-spec parsing (C6) -/

/-- `parsePackageSpec` in closed form (the two structurally identical branches
of the source collapse to one record). -/
theorem parsePackageSpec_eq (s : String) :
    parsePackageSpec s =
      match lastIdx '@' s.data with
      | none => ⟨s, none, s⟩
      | some 0 => ⟨s, none, s⟩
      | some atIndex =>
        ⟨⟨s.data.take atIndex⟩, some ⟨s.data.drop (atIndex + 1)⟩, s⟩ := by
  unfold parsePackageSpec
  cases lastIdx '@' s.data with
  | none => rfl
  | some i =>
    cases i with
    | zero => rfl
    | succ n =>
      simp only
      split <;> rfl

/-- A successful `lastIndexOf` decomposes the list around the found character. -/
theorem lastIdx_decomp {c : Char} :
    ∀ {l : List Char} {i : Nat}, lastIdx c l = some i →
      l = l.take i ++ c :: l.drop (i + 1) := by
  intro l
  induction l with
  | nil => intro i h; simp [lastIdx] at h
  | cons x xs ih =>
    intro i h
    unfold lastIdx at h
    cases hxs : lastIdx c xs with
    | some j =>
      rw [hxs] at h
      injection h with h
      subst h
      simp only [List.take_succ_cons, List.drop_succ_cons, List.cons_append]
      exact congrArg (List.cons x) (ih hxs)
    | none =>
      rw [hxs] at h
      by_cases hx : x = c
      · rw [if_pos hx] at h
        injection h with h
        subst h
        simp [hx]
      · rw [if_neg hx] at h
        exact absurd h (by simp)

/-- `parsePackageSpec` records the whole input string as `fullSpec`. -/
theorem parsePackageSpec_fullSpec (s : String) : (parsePackageSpec s).fullSpec = s := by
  rw [parsePackageSpec_eq]
  cases lastIdx '@' s.data with
  | none => rfl
  | some i => cases i with | zero => rfl | succ n => rfl

/-- C6 (amended): rebuilding a spec from `parseSpec(s)` returns `s` whenever
the parsed version is not the empty string (`buildSpec` drops an empty
version, so specs ending in a trailing `@` do not round-trip); and for every
(name, version), `parseSpec(buildSpec(name, version)).fullSpec` equals
`buildSpec(name, version)`. -/
theorem packageSpec_roundTrip :
    (∀ s : String, (parsePackageSpec s).version ≠ some "" →
      createPackageSpec (parsePackageSpec s).name (parsePackageSpec s).version = s) ∧
    (∀ (name : String) (version : Option String),
      (parsePackageSpec (createPackageSpec name version)).fullSpec =
        createPackageSpec name version) := by
  constructor
  · intro s h
    have hp := parsePackageSpec_eq s
    cases hli : lastIdx '@' s.data with
    | none =>
      rw [hli] at hp
      rw [hp]
      rfl
    | some i =>
      cases i with
      | zero =>
        rw [hli] at hp
        rw [hp]
        rfl
      | succ n =>
        rw [hli] at hp
        rw [hp] at h ⊢
        have hd : (⟨s.data.drop (n + 1 + 1)⟩ : String) ≠ "" := by
          intro hh
          apply h
          show some (⟨s.data.drop (n + 1 + 1)⟩ : String) = some ""
          rw [hh]
        show createPackageSpec ⟨s.data.take (n + 1)⟩ (some ⟨s.data.drop (n + 1 + 1)⟩) = s
        unfold createPackageSpec
        simp only [hd, if_false, reduceIte]
        apply String.ext
        have hdata :
            ((⟨s.data.take (n + 1)⟩ : String) ++ "@" ++
              (⟨s.data.drop (n + 1 + 1)⟩ : String)).data =
              s.data.take (n + 1) ++ '@' :: s.data.drop (n + 1 + 1) := by
          rw [String.data_append, String.data_append]
          show (s.data.take (n + 1) ++ ['@']) ++ s.data.drop (n + 1 + 1) = _
          rw [List.append_assoc]
          rfl
        rw [hdata]
        exact (lastIdx_decomp hli).symm
  · intro name version
    exact parsePackageSpec_fullSpec (createPackageSpec name version)

/-- Counterexample to C6 as stated: the spec string `"foo@"` parses to an
empty version, which `createPackageSpec` drops, so the rebuilt spec is
`"foo"`, not `"foo@"`. -/
theorem packageSpec_roundTrip_counterexample :
    parsePackageSpec "foo@" = ⟨"foo", some "", "foo@"⟩ ∧
    createPackageSpec (parsePackageSpec "foo@").name (parsePackageSpec "foo@").version =
      "foo" ∧
    ("foo" : String) ≠ "foo@" := by
  refine ⟨by decide, by decide, by decide⟩

/-- Witness for the amended C6 at a concrete spec string. -/
theorem packageSpec_roundTrip_witness :
    (parsePackageSpec "oxipng@9.1.5").version ≠ some "" ∧
    createPackageSpec (parsePackageSpec "oxipng@9.1.5").name
      (parsePackageSpec "oxipng@9.1.5").version = "oxipng@9.1.5" :=
  ⟨by decide, packageSpec_roundTrip.1 "oxipng@9.1.5" (by decide)⟩

/-! ## Retry Engine (`RetryMechanism.executeWithRetry`, `retry-mechanism.ts`) -/

/-- The retry loop of `executeWithRetry`, started at a given attempt index.
`op n` is the outcome of the `n`-th invocation of the wrapped operation
(0-based, matching the loop variable `attempt`); `retryable` models
`shouldRetryError` (the §4.3 classifier); delays/jitter only suspend and are
irrelevant to the returned value. Returns the result together with the total
number of invocations performed. -/
def retryGo (op : Nat → Except JsErr α) (retryable : JsErr → Bool)
    (maxRetries : Nat) (attempt : Nat) (invoked : Nat) : Except JsErr α × Nat :=
  match op attempt with
  | .ok v => (.ok v, invoked + 1)
  | .error e =>
    if ¬retryable e then (.error e, invoked + 1)
    else if maxRetries ≤ attempt then (.error e, invoked + 1)
    else retryGo op retryable maxRetries (attempt + 1) (invoked + 1)
termination_by maxRetries - attempt
decreasing_by
  simp_wf
  omega

/-- `executeWithRetry` from `retry-mechanism.ts`: run the operation for
`attempt = 0, 1, …, maxRetries`; return on first success; rethrow immediately
on a non-retryable failure; and rethrow the last error once the budget is
exhausted. -/
def executeWithRetry (op : Nat → Except JsErr α) (retryable : JsErr → Bool)
    (maxRetries : Nat) : Except JsErr α × Nat :=
  retryGo op retryable maxRetries 0 0

/-- C1: with `maxRetries = 2`, an operation failing twice with retryable
errors and then succeeding returns the success value after exactly three
invocations; and for any `maxRetries`, an operation whose first failure is
classified non-retryable is invoked exactly once, its error rethrown. -/
theorem executeWithRetry_spec :
    (∀ (op : Nat → Except JsErr Nat) (retryable : JsErr → Bool)
        (e0 e1 : JsErr) (v : Nat),
      op 0 = .error e0 → op 1 = .error e1 → op 2 = .ok v →
      retryable e0 = true → retryable e1 = true →
      executeWithRetry op retryable 2 = (.ok v, 3)) ∧
    (∀ (maxRetries : Nat) (op : Nat → Except JsErr Nat)
        (retryable : JsErr → Bool) (e : JsErr),
      op 0 = .error e → retryable e = false →
      executeWithRetry op retryable maxRetries = (.error e, 1)) := by
  constructor
  · intro op retryable e0 e1 v h0 h1 h2 hr0 hr1
    unfold executeWithRetry
    rw [retryGo]
    simp only [h0, hr0, Bool.not_true, Bool.false_eq_true, if_false]
    rw [if_neg (by omega : ¬(2 : Nat) ≤ 0)]
    rw [retryGo]
    simp only [h1, hr1, Bool.not_true, Bool.false_eq_true, if_false]
    rw [if_neg (by omega : ¬(2 : Nat) ≤ 1)]
    rw [retryGo]
    simp [h2]
  · intro maxRetries op retryable e h0 hr
    unfold executeWithRetry
    rw [retryGo]
    simp [h0, hr]

/-- Witness for C1 at concrete operations. -/
theorem executeWithRetry_spec_witness :
    executeWithRetry
      (fun n => if n = 0 then .error (.network "reset")
                else if n = 1 then .error (.network "timeout")
                else .ok 42)
      (fun err => match err with | .network _ => true | _ => false) 2 = (.ok 42, 3) ∧
    executeWithRetry (fun _ => (.error (.validation "bad input") : Except JsErr Nat))
      (fun err => match err with | .network _ => true | _ => false) 5 =
      (.error (.validation "bad input"), 1) :=
  ⟨executeWithRetry_spec.1 _ _ (.network "reset") (.network "timeout") 42
      rfl rfl rfl rfl rfl,
    executeWithRetry_spec.2 5 _ _ (.validation "bad input") rfl rfl⟩

/-! ## Registry Client (`VersionQueryService.checkForUpdates`, `version-query.ts`) -/

/-- `UpdateCandidate` from `src/types`. -/
structure UpdateCandidate where
  packageName : String
  currentVersion : String
  latestVersion : String
  updateAvailable : Bool
deriving Repr, DecidableEq

/-- The JS expression `parsedPackage.version || 'unknown'` (both a missing and
an empty version are falsy). -/
def versionOrUnknown : Option String → String
  | none => "unknown"
  | some v => if v = "" then "unknown" else v

/-- Whether `parsedPackage.version` is falsy (drives the
`!parsedPackage.version || …` short-circuit). -/
def versionFalsy : Option String → Bool
  | none => true
  | some v => v = ""

/-- `checkForUpdates` from `version-query.ts`. The registry lookup
(`getLatestVersion`, an awaited HTTP call wrapped in retries) is passed in as
its outcome `lookup`; `updateLatest` is the service's configuration flag. The
whole `try` block — including the `compareVersions` call, which can itself
throw `ValidationError` — is run, and any failure is converted by the `catch`
into the `lookup-failed` sentinel candidate. -/
def checkForUpdates (updateLatest : Bool) (parsedPackage : ParsedPackage)
    (lookup : Except JsErr String) : UpdateCandidate :=
  let tryBlock : Except JsErr UpdateCandidate := do
    let latestVersion ← lookup
    if parsedPackage.version = some "latest" then
      pure { packageName := parsedPackage.name
             currentVersion := "latest"
             latestVersion := latestVersion
             updateAvailable := updateLatest }
    else do
      let currentVersion := versionOrUnknown parsedPackage.version
      let updateAvailable ←
        if versionFalsy parsedPackage.version then pure true
        else do
          let c ← compareVersions latestVersion currentVersion
          pure (c > 0 : Bool)
      pure { packageName := parsedPackage.name
             currentVersion := currentVersion
             latestVersion := latestVersion
             updateAvailable := updateAvailable }
  match tryBlock with
  | .ok candidate => candidate
  | .error _ =>
    { packageName := parsedPackage.name
      currentVersion := versionOrUnknown parsedPackage.version
      latestVersion := "lookup-failed"
      updateAvailable := false }

/-- C2 (amended): `checkForUpdates` never throws — whenever the registry
lookup fails it returns the `lookup-failed` sentinel candidate with
`updateAvailable = false` and `currentVersion` equal to the package's original
version when that is non-empty, and `"unknown"` when the version is absent
*or the empty string* (the JS fallback `version || 'unknown'` treats an empty
version like a missing one). -/
theorem checkForUpdates_lookup_failure (updateLatest : Bool)
    (parsedPackage : ParsedPackage) (e : JsErr) :
    checkForUpdates updateLatest parsedPackage (.error e) =
      { packageName := parsedPackage.name
        currentVersion := versionOrUnknown parsedPackage.version
        latestVersion := "lookup-failed"
        updateAvailable := false } := by
  unfold checkForUpdates
  rfl

/-- Counterexample to C2 as stated: for the parsed package `"foo@"` (whose
original version is the empty string `""`), a failed lookup reports
`currentVersion = "unknown"`, not the original version `""`. -/
theorem checkForUpdates_lookup_failure_counterexample :
    (parsePackageSpec "foo@").version = some "" ∧
    (checkForUpdates false (parsePackageSpec "foo@")
        (.error (.network "boom"))).currentVersion = "unknown" ∧
    ("unknown" : String) ≠ "" := by
  refine ⟨by decide, by decide, by decide⟩

/-- C3 (amended): for a package pinned exactly to `"latest"`,
`currentVersion` is reported as `"latest"` verbatim and version comparison is
never consulted; when the registry lookup succeeds, `updateAvailable` equals
the caller-supplied `updateLatest` flag, but when the lookup fails the catch
branch returns `updateAvailable = false` regardless of the flag (with
`latestVersion = "lookup-failed"`). -/
theorem checkForUpdates_latest_pin (updateLatest : Bool)
    (parsedPackage : ParsedPackage) (lookup : Except JsErr String)
    (hv : parsedPackage.version = some "latest") :
    checkForUpdates updateLatest parsedPackage lookup =
      match lookup with
      | .ok latestVersion =>
        { packageName := parsedPackage.name
          currentVersion := "latest"
          latestVersion := latestVersion
          updateAvailable := updateLatest }
      | .error _ =>
        { packageName := parsedPackage.name
          currentVersion := "latest"
          latestVersion := "lookup-failed"
          updateAvailable := false } := by
  unfold checkForUpdates
  cases lookup with
  | error e =>
    simp only [versionOrUnknown, hv]
    rfl
  | ok latestVersion =>
    simp only [hv]
    rfl

/-- Witness for the amended C3 at a concrete package and lookup outcomes. -/
theorem checkForUpdates_latest_pin_witness :
    (parsePackageSpec "nodejs@latest").version = some "latest" ∧
    checkForUpdates true (parsePackageSpec "nodejs@latest") (.ok "20.10.0") =
      { packageName := "nodejs", currentVersion := "latest"
        latestVersion := "20.10.0", updateAvailable := true } ∧
    checkForUpdates true (parsePackageSpec "nodejs@latest")
        (.error (.network "down")) =
      { packageName := "nodejs", currentVersion := "latest"
        latestVersion := "lookup-failed", updateAvailable := false } :=
  ⟨by decide,
    checkForUpdates_latest_pin true (parsePackageSpec "nodejs@latest")
      (.ok "20.10.0") (by decide),
    checkForUpdates_latest_pin true (parsePackageSpec "nodejs@latest")
      (.error (.network "down")) (by decide)⟩

/-- Counterexample to C3 as stated: with `updateLatest = true` and a failing
registry lookup, the candidate for a `"latest"`-pinned package has
`updateAvailable = false`, not the flag value `true`. -/
theorem checkForUpdates_latest_pin_counterexample :
    (checkForUpdates true ⟨"nodejs", some "latest", "nodejs@latest"⟩
        (.error (.network "down"))).updateAvailable = false ∧
    (false : Bool) ≠ true := by
  refine ⟨by decide, by decide⟩

/-! ## File Mutator (`FileManager`, file-manager source; `validation.ts`) -/

/-- A `shell.scripts` value: a string or an array of strings. -/
inductive StrOrArr where
  | str (s : String)
  | arr (l : List String)
deriving Repr, DecidableEq

/-- The optional `shell` section of `devbox.json`. -/
structure ShellConfig where
  init_hook : Option (List String)
  scripts : Option (List (String × StrOrArr))
deriving Repr, DecidableEq

/-- The optional `nixpkgs` section of `devbox.json`. -/
structure NixpkgsConfig where
  commit : String
deriving Repr, DecidableEq

/-- `DevboxConfig` from `src/types` (already-typed shape of the manifest; the
dynamic type checks of `validateDevboxConfig` are unrepresentable here and
only its value-level checks remain). -/
structure DevboxConfig where
  packages : List String
  shell : Option ShellConfig
  nixpkgs : Option NixpkgsConfig
deriving Repr, DecidableEq

/-- Value-level checks of `validateDevboxConfig` from `validation.ts`:
non-empty `packages`, no empty (whitespace-only) package entry, and a
non-empty `nixpkgs.commit` when present. -/
def validateDevboxConfig (config : DevboxConfig) : Except JsErr Unit :=
  if config.packages.length = 0 then
    .error (.validation "Packages array cannot be empty")
  else if config.packages.any (fun pkg => (jsTrim pkg).length = 0) then
    .error (.validation "Package cannot be empty")
  else
    match config.nixpkgs with
    | some nixpkgs =>
      if (jsTrim nixpkgs.commit).length = 0 then
        .error (.validation "Nixpkgs commit cannot be empty")
      else .ok ()
    | none => .ok ()

/-- Insertion into the `updateMap` (models `Map.set`: the later entry for a
key wins). -/
def mapSet (m : List (String × String)) (k v : String) : List (String × String) :=
  (m.filter (fun p => p.1 ≠ k)) ++ [(k, v)]

/-- Lookup in the `updateMap` (models `Map.get`). -/
def mapGet (m : List (String × String)) (k : String) : Option String :=
  (m.find? (fun p => p.1 = k)).map (fun p => p.2)

/-- `FileManager.updatePackages`: rewrite each manifest entry whose parsed
name has a (truthy) new version in the update map, skipping updates whose
current version is `"latest"`; all other entries are kept verbatim. -/
def updatePackages (config : DevboxConfig) (updates : List UpdateCandidate) :
    DevboxConfig :=
  let updateMap := updates.foldl
    (fun m update =>
      if update.updateAvailable ∧ update.currentVersion ≠ "latest" then
        mapSet m update.packageName update.latestVersion
      else m) []
  { config with
    packages := config.packages.map (fun packageSpec =>
      let parsed := parsePackageSpec packageSpec
      match mapGet updateMap parsed.name with
      | some newVersion =>
        if newVersion ≠ "" then createPackageSpec parsed.name (some newVersion)
        else packageSpec
      | none => packageSpec) }

/-- Observable state touched by `FileManager`: the files on disk (path ↦
byte content) and the sequence of git commit messages recorded so far. -/
structure FmState where
  files : List (String × String)
  commits : List String
deriving Repr, DecidableEq

/-- Content of a file, `none` when absent (an `ENOENT` read). -/
def FmState.read (s : FmState) (path : String) : Option String :=
  (s.files.find? (fun p => p.1 = path)).map (fun p => p.2)

/-- Write (create or overwrite) a file. -/
def FmState.write (s : FmState) (path content : String) : FmState :=
  { s with files := (s.files.filter (fun p => p.1 ≠ path)) ++ [(path, content)] }

/-- Delete a file if present (`fs.unlink`, `ENOENT` ignored). -/
def FmState.remove (s : FmState) (path : String) : FmState :=
  { s with files := s.files.filter (fun p => p.1 ≠ path) }

/-- External collaborators of `FileManager`: the JSON builtins
(`JSON.parse`/`JSON.stringify`), the devbox toolchain and git, all opaque to
the action and therefore universally quantified in the theorems. -/
structure FmEnv where
  /-- `JSON.parse` on the manifest text, then the structural (type-level)
  part of validation; errors model `SyntaxError` messages. -/
  jsonParseConfig : String → Except String DevboxConfig
  /-- `JSON.stringify(config, null, 2)`. -/
  stringifyConfig : DevboxConfig → String
  /-- Whether a lock-file text parses as JSON (`JSON.parse` succeeding). -/
  jsonWellFormed : String → Bool
  /-- `devbox version` succeeding (devbox present on PATH). -/
  devboxAvailable : Bool
  /-- Effect of `devbox install` on the file system, or a command failure. -/
  devboxInstall : FmState → Except String FmState
  /-- `git status --porcelain` reporting a clean tree (nothing to commit). -/
  gitStatusClean : FmState → Bool
  /-- `git commit -m msg`: resulting state, or the command failure output. -/
  gitCommit : String → FmState → Except String FmState
  /-- Whether a `git commit` failure output says "nothing to commit". -/
  gitNothingToCommit : String → Bool

/-- `FileManager.readConfig`: read the manifest, `JSON.parse` it and validate,
mapping failures exactly as the source does. -/
def readConfig (env : FmEnv) (configPath : String) (s : FmState) :
    Except JsErr DevboxConfig :=
  match s.read configPath with
  | none => .error (.devbox ("Configuration file not found: " ++ configPath)
      "FILE_NOT_FOUND")
  | some content =>
    match env.jsonParseConfig content with
    | .error msg => .error (.validation ("Invalid JSON in " ++ configPath ++ ": " ++ msg))
    | .ok config =>
      match validateDevboxConfig config with
      | .error (.validation msg) =>
        .error (.validation ("Invalid devbox.json configuration structure: " ++ msg))
      | .error e => .error e
      | .ok _ => .ok config

/-- `FileManager.writeConfig`: validate, then persist
`JSON.stringify(config, null, 2) + "\n"`. -/
def writeConfig (env : FmEnv) (configPath : String) (config : DevboxConfig)
    (s : FmState) : Except JsErr FmState :=
  match validateDevboxConfig config with
  | .error (.validation msg) =>
    .error (.validation ("Cannot write invalid devbox.json configuration: " ++ msg))
  | .error e => .error e
  | .ok _ => .ok (s.write configPath (env.stringifyConfig config ++ "\n"))

/-- `FileManager.createBackup`: copy the manifest to a timestamped backup
path (the timestamp is passed in, modelling `new Date().toISOString()` with
`:`/`.` replaced by `-`). -/
def createBackup (configPath timestamp : String) (s : FmState) :
    Except JsErr (String × FmState) :=
  let backupPath := configPath ++ ".backup." ++ timestamp
  match s.read configPath with
  | none => .error (.devbox "Failed to create backup" "BACKUP_ERROR")
  | some content => .ok (backupPath, s.write backupPath content)

/-- `FileManager.restoreFromBackup`: copy the backup over the manifest. -/
def restoreFromBackup (backupPath configPath : String) (s : FmState) :
    Except JsErr FmState :=
  match s.read backupPath with
  | none => .error (.devbox "Failed to restore from backup" "RESTORE_ERROR")
  | some content => .ok (s.write configPath content)

/-- `FileManager.regenerateLock`: ensure devbox is installed, delete the stale
lock, run `devbox install`, and check that a lock file exists afterwards. -/
def regenerateLock (env : FmEnv) (lockPath : String) (s : FmState) :
    Except JsErr FmState :=
  if ¬env.devboxAvailable then
    .error (.devbox
      "Devbox is not installed or not available in PATH. Please install devbox first."
      "DEVBOX_NOT_FOUND")
  else
    let s1 := s.remove lockPath
    match env.devboxInstall s1 with
    | .error out =>
      .error (.devbox ("Failed to regenerate lock file: " ++ out)
        "DEVBOX_COMMAND_FAILED")
    | .ok s2 =>
      match s2.read lockPath with
      | some _ => .ok s2
      | none => .error (.devbox "Lock file was not generated after devbox install"
          "LOCK_GENERATION_FAILED")

/-- `FileManager.validateLockFile`: the lock file exists and parses as JSON. -/
def validateLockFile (env : FmEnv) (lockPath : String) (s : FmState) : Bool :=
  match s.read lockPath with
  | some content => env.jsonWellFormed content
  | none => false

/-- `FileManager.generateCommitMessage`. -/
def generateCommitMessage (updates : List UpdateCandidate) : String :=
  match updates with
  | [update] =>
    "chore: update " ++ update.packageName ++ " from " ++ update.currentVersion ++
      " to " ++ update.latestVersion
  | _ =>
    if updates.length ≤ 3 then
      "chore: update " ++ String.intercalate ", " (updates.map (fun u => u.packageName))
    else
      "chore: update " ++ toString updates.length ++ " Devbox packages"

/-- `FileManager.commitChanges`: stage the manifest and lock, skip when the
tree is clean, otherwise commit with the generated message (a "nothing to
commit" failure is not an error). -/
def commitChanges (env : FmEnv) (updates : List UpdateCandidate) (s : FmState) :
    Except JsErr FmState :=
  if env.gitStatusClean s then .ok s
  else
    let commitMessage := generateCommitMessage updates
    match env.gitCommit commitMessage s with
    | .ok s2 => .ok { s2 with commits := s2.commits ++ [commitMessage] }
    | .error out =>
      if env.gitNothingToCommit out then .ok s
      else .error (.devbox ("Failed to commit changes: " ++ out) "GIT_COMMIT_FAILED")

/-- `FileManager.applyUpdates`: filter candidates, fail with the dedicated
`NO_UPDATES` error when none is applicable, otherwise back the manifest up,
rewrite pinned entries, regenerate and validate the lock file, commit, and on
any failure after the backup restore it (a restore failure does not mask the
original error). Returns the outcome and the final file-system state. -/
def applyUpdates (env : FmEnv) (configPath lockPath timestamp : String)
    (updates : List UpdateCandidate) (s : FmState) :
    Except JsErr DevboxConfig × FmState :=
  let validUpdates := updates.filter (fun u => u.updateAvailable)
  let _failedLookups := updates.filter (fun u => u.latestVersion = "lookup-failed")
  let _skippedUpdates := updates.filter
    (fun u => ¬u.updateAvailable ∧ u.latestVersion ≠ "lookup-failed")
  if validUpdates.length = 0 then
    (.error (.devbox "No valid updates to apply" "NO_UPDATES"), s)
  else
    let configUpdates := validUpdates.filter (fun u => u.currentVersion ≠ "latest")
    let _latestOnlyUpdates := validUpdates.filter (fun u => u.currentVersion = "latest")
    match createBackup configPath timestamp s with
    | .error e => (.error e, s)
    | .ok (backupPath, s1) =>
      let tryResult : Except (JsErr × FmState) (DevboxConfig × FmState) :=
        match readConfig env configPath s1 with
        | .error e => .error (e, s1)
        | .ok currentConfig =>
          let step2 : Except (JsErr × FmState) (DevboxConfig × FmState) :=
            if configUpdates.length > 0 then
              let updatedConfig := updatePackages currentConfig configUpdates
              match writeConfig env configPath updatedConfig s1 with
              | .error e => .error (e, s1)
              | .ok s2 => .ok (updatedConfig, s2)
            else .ok (currentConfig, s1)
          match step2 with
          | .error es => .error es
          | .ok (updatedConfig, s2) =>
            match regenerateLock env lockPath s2 with
            | .error e => .error (e, s2)
            | .ok s3 =>
              if ¬validateLockFile env lockPath s3 then
                (.error ((.devbox "Generated lock file is invalid" "INVALID_LOCK_FILE"),
                  s3))
              else
                match commitChanges env validUpdates s3 with
                | .error e => .error (e, s3)
                | .ok s4 => .ok (updatedConfig, s4)
      match tryResult with
      | .ok (updatedConfig, sFinal) => (.ok updatedConfig, sFinal)
      | .error (e, sFail) =>
        match restoreFromBackup backupPath configPath sFail with
        | .ok sRestored => (.error e, sRestored)
        | .error _ => (.error e, sFail)

/-- C4: when no candidate has `updateAvailable = true`, `applyUpdates` fails
with the dedicated `"No valid updates to apply"` (`NO_UPDATES`) error and the
file-system state is returned unchanged — for every environment, so no
backup, manifest write, lock regeneration, or commit can have been attempted. -/
theorem applyUpdates_no_valid_updates (env : FmEnv)
    (configPath lockPath timestamp : String) (updates : List UpdateCandidate)
    (s : FmState) (h : ∀ u ∈ updates, u.updateAvailable = false) :
    applyUpdates env configPath lockPath timestamp updates s =
      (.error (.devbox "No valid updates to apply" "NO_UPDATES"), s) := by
  unfold applyUpdates
  have hfilter : updates.filter (fun u => u.updateAvailable) = [] := by
    rw [List.filter_eq_nil_iff]
    intro u hu
    simp [h u hu]
  rw [hfilter]
  rfl

/-- Witness for C4 at a concrete candidate list, state and environment. -/
theorem applyUpdates_no_valid_updates_witness :
    (∀ u ∈ [({ packageName := "nodejs", currentVersion := "18.0.0",
               latestVersion := "18.0.0", updateAvailable := false } :
               UpdateCandidate),
            { packageName := "go", currentVersion := "1.22",
              latestVersion := "lookup-failed", updateAvailable := false }],
      u.updateAvailable = false) ∧
    applyUpdates
      { jsonParseConfig := fun _ => .error "unused"
        stringifyConfig := fun _ => ""
        jsonWellFormed := fun _ => true
        devboxAvailable := true
        devboxInstall := fun st => .ok st
        gitStatusClean := fun _ => true
        gitCommit := fun _ st => .ok st
        gitNothingToCommit := fun _ => false }
      "devbox.json" "devbox.lock" "2026-10-12T00-00-00-000Z"
      [{ packageName := "nodejs", currentVersion := "18.0.0",
         latestVersion := "18.0.0", updateAvailable := false },
       { packageName := "go", currentVersion := "1.22",
         latestVersion := "lookup-failed", updateAvailable := false }]
      { files := [("devbox.json", "manifest-bytes")], commits := [] } =
      (.error (.devbox "No valid updates to apply" "NO_UPDATES"),
        { files := [("devbox.json", "manifest-bytes")], commits := [] }) :=
  ⟨by decide,
    applyUpdates_no_valid_updates _ "devbox.json" "devbox.lock"
      "2026-10-12T00-00-00-000Z" _ _ (by decide)⟩

/-- C9 (amended): the generated commit message is
`"chore: update X from A to B"` for a single package, `"chore: update "`
followed by the `", "`-joined package names for two or three packages, and
`"chore: update N Devbox packages"` (with the word `Devbox`, which C9 as
stated omits) for more than three packages. -/
theorem generateCommitMessage_spec :
    (∀ u : UpdateCandidate,
      generateCommitMessage [u] =
        "chore: update " ++ u.packageName ++ " from " ++ u.currentVersion ++
          " to " ++ u.latestVersion) ∧
    (∀ updates : List UpdateCandidate,
      2 ≤ updates.length → updates.length ≤ 3 →
      generateCommitMessage updates =
        "chore: update " ++
          String.intercalate ", " (updates.map (fun u => u.packageName))) ∧
    (∀ updates : List UpdateCandidate,
      3 < updates.length →
      generateCommitMessage updates =
        "chore: update " ++ toString updates.length ++ " Devbox packages") := by
  refine ⟨fun u => rfl, ?_, ?_⟩
  · intro updates h2 h3
    match updates with
    | [] => simp at h2
    | [u] => simp at h2
    | u1 :: u2 :: rest =>
      show (if (u1 :: u2 :: rest).length ≤ 3 then _ else _) = _
      rw [if_pos h3]
  · intro updates h4
    match updates with
    | [] => simp at h4
    | [u] => simp at h4
    | u1 :: u2 :: rest =>
      show (if (u1 :: u2 :: rest).length ≤ 3 then _ else _) = _
      rw [if_neg (by omega)]

/-- Witness for the amended C9 at concrete update lists. -/
theorem generateCommitMessage_spec_witness :
    generateCommitMessage
        [{ packageName := "nodejs", currentVersion := "18.0.0",
           latestVersion := "20.10.0", updateAvailable := true }] =
      "chore: update nodejs from 18.0.0 to 20.10.0" ∧
    generateCommitMessage
        [{ packageName := "a", currentVersion := "1", latestVersion := "2",
           updateAvailable := true },
         { packageName := "b", currentVersion := "1", latestVersion := "2",
           updateAvailable := true }] =
      "chore: update a, b" ∧
    generateCommitMessage
        [{ packageName := "a", currentVersion := "1", latestVersion := "2",
           updateAvailable := true },
         { packageName := "b", currentVersion := "1", latestVersion := "2",
           updateAvailable := true },
         { packageName := "c", currentVersion := "1", latestVersion := "2",
           updateAvailable := true },
         { packageName := "d", currentVersion := "1", latestVersion := "2",
           updateAvailable := true }] =
      "chore: update 4 Devbox packages" := by
  refine ⟨?_, ?_, ?_⟩
  · have := generateCommitMessage_spec.1
      { packageName := "nodejs", currentVersion := "18.0.0",
        latestVersion := "20.10.0", updateAvailable := true }
    rw [this]
    decide
  · have := generateCommitMessage_spec.2.1
      [{ packageName := "a", currentVersion := "1", latestVersion := "2",
         updateAvailable := true },
       { packageName := "b", currentVersion := "1", latestVersion := "2",
         updateAvailable := true }] (by decide) (by decide)
    rw [this]
    decide
  · have := generateCommitMessage_spec.2.2
      [{ packageName := "a", currentVersion := "1", latestVersion := "2",
         updateAvailable := true },
       { packageName := "b", currentVersion := "1", latestVersion := "2",
         updateAvailable := true },
       { packageName := "c", currentVersion := "1", latestVersion := "2",
         updateAvailable := true },
       { packageName := "d", currentVersion := "1", latestVersion := "2",
         updateAvailable := true }] (by decide)
    rw [this]
    decide

/-- Counterexample to C9 as stated: for four packages the code emits
`"chore: update 4 Devbox packages"`, not `"chore: update 4 packages"`. -/
theorem generateCommitMessage_counterexample :
    generateCommitMessage
        [{ packageName := "a", currentVersion := "1", latestVersion := "2",
           updateAvailable := true },
         { packageName := "b", currentVersion := "1", latestVersion := "2",
           updateAvailable := true },
         { packageName := "c", currentVersion := "1", latestVersion := "2",
           updateAvailable := true },
         { packageName := "e", currentVersion := "1", latestVersion := "2",
           updateAvailable := true }] =
      "chore: update 4 Devbox packages" ∧
    ("chore: update 4 Devbox packages" : String) ≠ "chore: update 4 packages" := by
  refine ⟨by decide, by decide⟩

/-! ## PR Reconciler (`PullRequestManager`, pr-manager source) -/

/-- Models `String.prototype.toLowerCase` character-wise; the branch-name
sanitizers only ever feed it basic-latin characters, on which JS and
`Char.toLower` agree. -/
def jsToLower (s : String) : String :=
  ⟨s.data.map Char.toLower⟩

/-- Membership in the branch-name character class `[a-zA-Z0-9-]`. -/
def isBranchSafe (c : Char) : Bool :=
  (97 ≤ c.toNat ∧ c.toNat ≤ 122) ∨ (65 ≤ c.toNat ∧ c.toNat ≤ 90) ∨
    (48 ≤ c.toNat ∧ c.toNat ≤ 57) ∨ c = '-'

/-- `replace(/[^a-zA-Z0-9-]/g, "-")`. -/
def sanitizeBranchPart (s : String) : String :=
  ⟨s.data.map (fun c => if isBranchSafe c then c else '-')⟩

/-- `packageName.split("@")[0]`: the prefix before the first `@`. -/
def beforeFirstAt (s : String) : String :=
  ⟨s.data.takeWhile (fun c => c ≠ '@')⟩

/-- Truthiness of the optional `resolvedVersion` argument. -/
def resolvedTruthy : Option String → Bool
  | none => false
  | some s => s ≠ ""

/-- `PullRequestManager.generatePackageBranchName`: Renovate-style
`prefix/clean-name-sanitized-version`; a `"latest"` target uses the resolved
version when available, otherwise `latest-` plus the current date (`today`,
modelling `toISOString().split("T")[0]`). -/
def generatePackageBranchName (branchPrefix packageName targetVersion : String)
    (resolvedVersion : Option String) (today : String) : String :=
  let cleanPackageName := jsToLower (sanitizeBranchPart (beforeFirstAt packageName))
  let versionForBranch :=
    if jsToLower targetVersion = "latest" ∧ resolvedTruthy resolvedVersion then
      resolvedVersion.getD ""
    else if jsToLower targetVersion = "latest" then
      "latest-" ++ today
    else targetVersion
  let sanitizedVersion := sanitizeBranchPart versionForBranch
  branchPrefix ++ "/" ++ cleanPackageName ++ "-" ++ sanitizedVersion

/-- `PullRequestManager.generateMultiPackageBranchName`. -/
def generateMultiPackageBranchName (branchPrefix : String) : String :=
  branchPrefix ++ "/multi-package-updates"

/-- `PullRequestManager.generateBranchName`: single-package mode with exactly
one update names the branch after that package (its `latestVersion` doubling
as the resolved version); otherwise the multi-package branch name. -/
def generateBranchName (singlePackageMode : Bool) (branchPrefix : String)
    (updates : Option (List UpdateCandidate)) (today : String) : String :=
  match updates with
  | some (u :: rest) =>
    if singlePackageMode ∧ rest = [] then
      generatePackageBranchName branchPrefix u.packageName u.latestVersion
        (some u.latestVersion) today
    else generateMultiPackageBranchName branchPrefix
  | _ => generateMultiPackageBranchName branchPrefix

/-- `replace(/[^a-zA-Z0-9\-_.]/g, "-")` then lowercase, as used by
`generateUniqueBranchName`. -/
def sanitizeUniquePart (s : String) : String :=
  jsToLower ⟨s.data.map (fun c =>
    if isBranchSafe c ∨ c = '_' ∨ c = '.' then c else '-')⟩

/-- `PullRequestManager.generateUniqueBranchName` (`timestamp` models the
ISO timestamp with `:`/`.` replaced by `-` and milliseconds dropped). -/
def generateUniqueBranchName (branchPrefix : String)
    (packageName : Option String) (timestamp : String) : String :=
  match packageName with
  | some name => branchPrefix ++ "/" ++ sanitizeUniquePart name ++ "-" ++ timestamp
  | none => branchPrefix ++ "/updates-" ++ timestamp

/-- GitHub repository state seen by `PullRequestManager` branch operations:
the tip SHA of each existing branch, which ref creations fail (races), and
the repository's configured default branch (`repos.get().default_branch`). -/
structure RepoEnv where
  branchTip : String → Option String
  createRefFails : String → Bool
  defaultBranch : String

/-- `PullRequestManager.branchExists` (`repos.getBranch`, 404 ⇒ false). -/
def branchExists (env : RepoEnv) (branchName : String) : Bool :=
  (env.branchTip branchName).isSome

/-- `PullRequestManager.getDefaultBranch` (falls back to `"main"` only if the
repository lookup itself fails, which we model as always succeeding). -/
def getDefaultBranch (env : RepoEnv) : String :=
  env.defaultBranch

/-- `PullRequestManager.createBranch`: resolve the base branch tip (the
`baseBranch` parameter defaults to `"main"` in the source) and create the ref;
returns the created `(name, baseSha)` pair. -/
def createBranch (env : RepoEnv) (branchName : String)
    (baseBranch : String := "main") : Except JsErr (String × String) :=
  match env.branchTip baseBranch with
  | none => .error (.github ("Failed to create branch " ++ branchName))
  | some sha =>
    if env.createRefFails branchName then
      .error (.github ("Failed to create branch " ++ branchName))
    else .ok (branchName, sha)

/-- `PullRequestManager.getOrCreateUpdateBranch`: reuse the computed branch if
it exists (creating nothing); otherwise create it (from `"main"`), falling
back to a unique timestamped name if that creation fails. Returns the branch
name together with the list of refs actually created as `(name, baseSha)`. -/
def getOrCreateUpdateBranch (env : RepoEnv) (singlePackageMode : Bool)
    (branchPrefix : String) (updates : Option (List UpdateCandidate))
    (today timestamp : String) : Except JsErr (String × List (String × String)) :=
  let branchName := generateBranchName singlePackageMode branchPrefix updates today
  if branchExists env branchName then .ok (branchName, [])
  else
    match createBranch env branchName with
    | .ok ref => .ok (branchName, [ref])
    | .error _ =>
      let packageName :=
        match updates with
        | some [u] => some u.packageName
        | _ => none
      let branchName2 := generateUniqueBranchName branchPrefix packageName timestamp
      match createBranch env branchName2 with
      | .ok ref => .ok (branchName2, [ref])
      | .error e => .error e

/-- Adjacent-double-slash test (models `includes("//")`). -/
def hasDoubleSlash : List Char → Bool
  | [] => false
  | [_] => false
  | a :: b :: r => (a = '/' ∧ b = '/') || hasDoubleSlash (b :: r)

/-- Contiguous-suffix test on char lists (models `endsWith`). -/
def listEndsWith (l suffix : List Char) : Bool :=
  if suffix.length > l.length then false
  else if suffix.length = l.length then suffix = l
  else
    match l with
    | [] => false
    | _ :: t => listEndsWith t suffix

/-- `PullRequestManager.validateBranchName`: non-empty, no leading/trailing
slash, no `//`, no `.lock` suffix, and no space, `[~^:?*[\]\\]` or control
characters. -/
def validateBranchName (branchName : String) : Bool :=
  let l := branchName.data
  if l.isEmpty then false
  else if l.head? = some '/' ∨ l.getLast? = some '/' then false
  else if hasDoubleSlash l then false
  else if listEndsWith l ['.', 'l', 'o', 'c', 'k'] then false
  else
    let hasSpace := l.contains ' '
    let hasInvalidChars := l.any (fun c =>
      c = '~' ∨ c = '^' ∨ c = ':' ∨ c = '?' ∨ c = '*' ∨ c = '[' ∨ c = '\\' ∨ c = ']')
    let hasControlChars := l.any (fun c => c.toNat ≤ 31 ∨ c.toNat = 127)
    ¬(hasSpace ∨ hasInvalidChars ∨ hasControlChars)

/-- The single-package branch name exactly as C7 words it, for comparison
with the implementation: one sanitization (lowercase, then every character
outside `[a-zA-Z0-9-]` replaced by `-`) applied to the whole package name and
to the chosen version. Modelled from the claim's sentence, not from the
source. -/
def claimBranchNameC7 (branchPrefix packageName targetVersion : String)
    (resolvedVersion : Option String) (today : String) : String :=
  let sanitize := fun s => jsToLower (sanitizeBranchPart s)
  let versionForBranch :=
    if jsToLower targetVersion = "latest" ∧ resolvedTruthy resolvedVersion then
      resolvedVersion.getD ""
    else if jsToLower targetVersion = "latest" then
      "latest-" ++ today
    else targetVersion
  branchPrefix ++ "/" ++ sanitize packageName ++ "-" ++ sanitize versionForBranch

/-- C7 (amended): with prefix `"devbox"`, the single biome update yields
exactly `"devbox/biome-2-3-9"` and any two or more updates yield exactly
`"devbox/multi-package-updates"`; in single-package mode the branch is
`prefix/clean-name-sanitized-version` where the *name* is first truncated at
its first `@`, then sanitized (replace outside `[a-zA-Z0-9-]` with `-`, then
lowercase), while the *version* is sanitized without lowercasing; a resolved
version is used for a `"latest"` target, and an unresolved `"latest"` target
is suffixed with the current date. -/
theorem generateBranchName_spec :
    (∀ today : String,
      generateBranchName true "devbox"
        (some [{ packageName := "biome", currentVersion := "2.3.8",
                 latestVersion := "2.3.9", updateAvailable := true }]) today =
        "devbox/biome-2-3-9") ∧
    (∀ (updates : List UpdateCandidate) (today : String), 2 ≤ updates.length →
      generateBranchName true "devbox" (some updates) today =
        "devbox/multi-package-updates") ∧
    (∀ (packageName targetVersion : String) (resolvedVersion : Option String)
        (today : String),
      generatePackageBranchName "devbox" packageName targetVersion
          resolvedVersion today =
        "devbox/" ++ jsToLower (sanitizeBranchPart (beforeFirstAt packageName)) ++
          "-" ++ sanitizeBranchPart
            (if jsToLower targetVersion = "latest" ∧ resolvedTruthy resolvedVersion
             then resolvedVersion.getD ""
             else if jsToLower targetVersion = "latest" then "latest-" ++ today
             else targetVersion)) := by
  refine ⟨fun today => rfl, ?_, fun n tv rv today => rfl⟩
  intro updates today h2
  match updates with
  | [] => simp at h2
  | [u] => simp at h2
  | u1 :: u2 :: rest =>
    simp only [generateBranchName]
    rw [if_neg (by simp : ¬(True ∧ u2 :: rest = ([] : List UpdateCandidate)))]
    rfl

/-- Witness for the amended C7 at a concrete two-update list. -/
theorem generateBranchName_spec_witness :
    2 ≤ ([({ packageName := "biome", currentVersion := "2.3.8",
             latestVersion := "2.3.9", updateAvailable := true } : UpdateCandidate),
          { packageName := "go", currentVersion := "1.21",
            latestVersion := "1.22", updateAvailable := true }] :
          List UpdateCandidate).length ∧
    generateBranchName true "devbox"
      (some [{ packageName := "biome", currentVersion := "2.3.8",
               latestVersion := "2.3.9", updateAvailable := true },
             { packageName := "go", currentVersion := "1.21",
               latestVersion := "1.22", updateAvailable := true }]) "2026-10-12" =
      "devbox/multi-package-updates" :=
  ⟨by decide, generateBranchName_spec.2.1 _ "2026-10-12" (by decide)⟩

/-- Counterexample to C7 as stated: for a package name containing `@` the code
truncates at the `@` before sanitizing (and never lowercases the version), so
`generatePackageBranchName` disagrees with the claim's
`prefix/sanitized-name-sanitized-version` formula. -/
theorem generateBranchName_counterexample :
    generatePackageBranchName "devbox" "a@B" "1.0RC" none "2026-10-12" =
      "devbox/a-1-0RC" ∧
    claimBranchNameC7 "devbox" "a@B" "1.0RC" none "2026-10-12" =
      "devbox/a-b-1-0rc" ∧
    ("devbox/a-1-0RC" : String) ≠ "devbox/a-b-1-0rc" := by
  refine ⟨by decide, by decide, by decide⟩

/-- C8 (amended): `getOrCreateUpdateBranch` returns the computed branch name
unchanged and creates nothing when that branch exists; otherwise it creates
the branch from the tip of the hard-coded base branch `"main"` (not the
repository's configured default branch); and when that creation fails it
falls back to creating and returning the timestamp-suffixed unique branch
name. -/
theorem getOrCreateUpdateBranch_spec (env : RepoEnv) (singlePackageMode : Bool)
    (branchPrefix : String) (updates : Option (List UpdateCandidate))
    (today timestamp : String) :
    (branchExists env
        (generateBranchName singlePackageMode branchPrefix updates today) = true →
      getOrCreateUpdateBranch env singlePackageMode branchPrefix updates
          today timestamp =
        .ok (generateBranchName singlePackageMode branchPrefix updates today, [])) ∧
    (∀ sha : String,
      branchExists env
        (generateBranchName singlePackageMode branchPrefix updates today) = false →
      env.branchTip "main" = some sha →
      env.createRefFails
        (generateBranchName singlePackageMode branchPrefix updates today) = false →
      getOrCreateUpdateBranch env singlePackageMode branchPrefix updates
          today timestamp =
        .ok (generateBranchName singlePackageMode branchPrefix updates today,
          [(generateBranchName singlePackageMode branchPrefix updates today, sha)])) ∧
    (∀ sha : String,
      branchExists env
        (generateBranchName singlePackageMode branchPrefix updates today) = false →
      env.createRefFails
        (generateBranchName singlePackageMode branchPrefix updates today) = true →
      env.branchTip "main" = some sha →
      env.createRefFails
        (generateUniqueBranchName branchPrefix
          (match updates with | some [u] => some u.packageName | _ => none)
          timestamp) = false →
      getOrCreateUpdateBranch env singlePackageMode branchPrefix updates
          today timestamp =
        .ok (generateUniqueBranchName branchPrefix
            (match updates with | some [u] => some u.packageName | _ => none)
            timestamp,
          [(generateUniqueBranchName branchPrefix
              (match updates with | some [u] => some u.packageName | _ => none)
              timestamp, sha)])) := by
  refine ⟨?_, ?_, ?_⟩
  · intro hex
    unfold getOrCreateUpdateBranch
    rw [if_pos hex]
  · intro sha hex hmain hcreate
    unfold getOrCreateUpdateBranch
    rw [if_neg (by simp [hex])]
    unfold createBranch
    rw [hmain]
    simp only [hcreate, Bool.false_eq_true, if_false]
  · intro sha hex hfail hmain hok
    unfold getOrCreateUpdateBranch
    rw [if_neg (by simp [hex])]
    unfold createBranch
    rw [hmain]
    simp only [hfail, if_true, hok, Bool.false_eq_true, if_false]

/-- Witness for the amended C8: a repository where the computed branch exists
(first conjunct), and one where it does not and creation succeeds from
`"main"` (second conjunct). -/
theorem getOrCreateUpdateBranch_spec_witness :
    getOrCreateUpdateBranch
      { branchTip := fun b => if b = "devbox/nodejs-20-10-0" then some "shaOld"
                              else if b = "main" then some "shaMain" else none
        createRefFails := fun _ => false
        defaultBranch := "main" }
      true "devbox"
      (some [{ packageName := "nodejs", currentVersion := "18.0.0",
               latestVersion := "20.10.0", updateAvailable := true }])
      "2026-10-12" "ts" = .ok ("devbox/nodejs-20-10-0", []) ∧
    getOrCreateUpdateBranch
      { branchTip := fun b => if b = "main" then some "shaMain" else none
        createRefFails := fun _ => false
        defaultBranch := "main" }
      true "devbox"
      (some [{ packageName := "nodejs", currentVersion := "18.0.0",
               latestVersion := "20.10.0", updateAvailable := true }])
      "2026-10-12" "ts" =
      .ok ("devbox/nodejs-20-10-0", [("devbox/nodejs-20-10-0", "shaMain")]) :=
  ⟨(getOrCreateUpdateBranch_spec _ true "devbox" _ "2026-10-12" "ts").1 (by decide),
    (getOrCreateUpdateBranch_spec _ true "devbox" _ "2026-10-12" "ts").2.1 "shaMain"
      (by decide) (by decide) (by decide)⟩

/-- Counterexample to C8 as stated: in a repository whose default branch is
`"develop"`, the missing update branch is created from the tip of `"main"`,
not from the default branch's tip. -/
theorem getOrCreateUpdateBranch_counterexample :
    getOrCreateUpdateBranch
      { branchTip := fun b => if b = "main" then some "shaMain"
                              else if b = "develop" then some "shaDev" else none
        createRefFails := fun _ => false
        defaultBranch := "develop" }
      true "devbox"
      (some [{ packageName := "nodejs", currentVersion := "18.0.0",
               latestVersion := "20.10.0", updateAvailable := true }])
      "2026-10-12" "ts" =
      .ok ("devbox/nodejs-20-10-0", [("devbox/nodejs-20-10-0", "shaMain")]) ∧
    getDefaultBranch
      { branchTip := fun b => if b = "main" then some "shaMain"
                              else if b = "develop" then some "shaDev" else none
        createRefFails := fun _ => false
        defaultBranch := "develop" } = "develop" ∧
    RepoEnv.branchTip
      { branchTip := fun b => if b = "main" then some "shaMain"
                              else if b = "develop" then some "shaDev" else none
        createRefFails := fun _ => false
        defaultBranch := "develop" } "develop" = some "shaDev" ∧
    ("shaMain" : String) ≠ "shaDev" := by
  refine ⟨by decide, by decide, by decide, by decide⟩

/-! ## Validity of generated branch names (C10) -/

theorem isBranchSafe_toLower (c : Char) (h : isBranchSafe c = true) :
    isBranchSafe (Char.toLower c) = true := by
  rw [isBranchSafe] at h
  have hp := of_decide_eq_true h
  rcases hp with ⟨h1, h2⟩ | ⟨h1, h2⟩ | ⟨h1, h2⟩ | h1
  · rw [show Char.toLower c = c from by
      unfold Char.toLower
      rw [if_neg (by omega)]]
    rw [isBranchSafe]
    exact decide_eq_true (Or.inl ⟨h1, h2⟩)
  · have ht : (Char.toLower c).toNat = c.toNat + 32 := by
      unfold Char.toLower
      rw [if_pos (show c.toNat ≥ 65 ∧ c.toNat ≤ 90 from ⟨h1, h2⟩)]
      rw [Char.ofNat, dif_pos (Or.inl (by omega) : Char.isValidCharNat (c.toNat + 32))]
      rfl
    rw [isBranchSafe]
    exact decide_eq_true (Or.inl ⟨by omega, by omega⟩)
  · rw [show Char.toLower c = c from by
      unfold Char.toLower
      rw [if_neg (by omega)]]
    rw [isBranchSafe]
    exact decide_eq_true (Or.inr (Or.inr (Or.inl ⟨h1, h2⟩)))
  · subst h1
    decide

theorem sanitize_chars_safe (s : String) :
    ∀ c ∈ (sanitizeBranchPart s).data, isBranchSafe c = true := by
  intro c hc
  unfold sanitizeBranchPart at hc
  simp only [List.mem_map] at hc
  obtain ⟨a, _, rfl⟩ := hc
  by_cases ha : isBranchSafe a = true
  · rw [if_pos ha]
    exact ha
  · rw [if_neg ha]
    decide

theorem clean_chars_safe (s : String) :
    ∀ c ∈ (jsToLower (sanitizeBranchPart s)).data, isBranchSafe c = true := by
  intro c hc
  unfold jsToLower at hc
  simp only [List.mem_map] at hc
  obtain ⟨a, ha, rfl⟩ := hc
  exact isBranchSafe_toLower a (sanitize_chars_safe s a ha)

theorem safe_ne_slash (c : Char) (h : isBranchSafe c = true) : c ≠ '/' := by
  intro he
  subst he
  exact absurd h (by decide)

theorem safe_ne_dot (c : Char) (h : isBranchSafe c = true) : c ≠ '.' := by
  intro he
  subst he
  exact absurd h (by decide)

theorem safe_ne_space (c : Char) (h : isBranchSafe c = true) : c ≠ ' ' := by
  intro he
  subst he
  exact absurd h (by decide)

theorem safe_not_invalid (c : Char) (h : isBranchSafe c = true) :
    ¬(c = '~' ∨ c = '^' ∨ c = ':' ∨ c = '?' ∨ c = '*' ∨ c = '[' ∨ c = '\\' ∨ c = ']') := by
  intro hc
  rcases hc with he | he | he | he | he | he | he | he <;>
    (subst he; exact absurd h (by decide))

theorem safe_not_control (c : Char) (h : isBranchSafe c = true) :
    ¬(c.toNat ≤ 31 ∨ c.toNat = 127) := by
  intro hc
  rw [isBranchSafe] at h
  have hp := of_decide_eq_true h
  rcases hp with ⟨h1, h2⟩ | ⟨h1, h2⟩ | ⟨h1, h2⟩ | h1
  · omega
  · omega
  · omega
  · subst h1
    exact absurd hc (by decide)

theorem hasDoubleSlash_eq_false :
    ∀ l : List Char, (∀ c ∈ l, c ≠ '/') → hasDoubleSlash l = false := by
  intro l
  induction l with
  | nil => intro _; rfl
  | cons a t ih =>
    intro h
    cases t with
    | nil => rfl
    | cons b t2 =>
      unfold hasDoubleSlash
      rw [ih (fun c hc => h c (List.mem_cons_of_mem a hc))]
      have ha : a ≠ '/' := h a (by simp)
      simp [ha]

theorem listEndsWith_mem {a : Char} :
    ∀ (l s : List Char), listEndsWith l s = true → a ∈ s → a ∈ l := by
  intro l
  induction l with
  | nil =>
    intro s h ha
    unfold listEndsWith at h
    by_cases h1 : s.length > ([] : List Char).length
    · rw [if_pos h1] at h
      exact absurd h (by simp)
    · rw [if_neg h1] at h
      by_cases h2 : s.length = ([] : List Char).length
      · rw [if_pos h2] at h
        have : s = [] := List.length_eq_zero.mp (by simpa using h2)
        subst this
        simp at ha
      · rw [if_neg h2] at h
        exact absurd h (by simp)
  | cons x t ih =>
    intro s h ha
    unfold listEndsWith at h
    by_cases h1 : s.length > (x :: t).length
    · rw [if_pos h1] at h
      exact absurd h (by simp)
    · rw [if_neg h1] at h
      by_cases h2 : s.length = (x :: t).length
      · rw [if_pos h2] at h
        have : s = x :: t := by
          have := of_decide_eq_true h
          exact this
        subst this
        exact ha
      · rw [if_neg h2] at h
        exact List.mem_cons_of_mem x (ih s h ha)

/-- Any string of the form `devbox/…` whose tail consists of `[a-zA-Z0-9-]`
characters only passes `validateBranchName`. -/
theorem validateBranchName_safe_tail (s : String) (r : List Char)
    (hdata : s.data = ['d', 'e', 'v', 'b', 'o', 'x', '/'] ++ r)
    (hsafe : ∀ c ∈ r, isBranchSafe c = true) (hne : r ≠ []) :
    validateBranchName s = true := by
  obtain ⟨c0, r', rfl⟩ : ∃ c0 r', r = c0 :: r' := by
    cases r with
    | nil => exact absurd rfl hne
    | cons a b => exact ⟨a, b, rfl⟩
  have hslash : ∀ c ∈ c0 :: r', c ≠ '/' :=
    fun c hc => safe_ne_slash c (hsafe c hc)
  unfold validateBranchName
  rw [hdata]
  rw [if_neg (by simp : ¬((['d', 'e', 'v', 'b', 'o', 'x', '/'] ++ c0 :: r').isEmpty = true))]
  rw [if_neg ?hhead]
  case hhead =>
    intro hor
    rcases hor with hh | hl
    · simp at hh
    · rw [List.getLast?_append] at hl
      cases hlast : (c0 :: r').getLast? with
      | none => exact absurd (List.getLast?_eq_none_iff.mp hlast) (by simp)
      | some x =>
        rw [hlast] at hl
        simp only [Option.or_some, Option.some.injEq] at hl
        subst hl
        have hx : '/' ∈ c0 :: r' := by
          have := List.getLast?_eq_some_iff.mp hlast
          obtain ⟨ys, hys⟩ := this
          rw [hys]
          simp
        exact hslash '/' hx rfl
  rw [if_neg ?hds]
  case hds =>
    intro hd
    have expand : (['d', 'e', 'v', 'b', 'o', 'x', '/'] ++ c0 :: r' : List Char) =
        'd' :: 'e' :: 'v' :: 'b' :: 'o' :: 'x' :: '/' :: c0 :: r' := rfl
    rw [expand] at hd
    simp only [hasDoubleSlash] at hd
    rw [hasDoubleSlash_eq_false (c0 :: r') hslash] at hd
    have hc0 : c0 ≠ '/' := hslash c0 (by simp)
    simp [hc0] at hd
  rw [if_neg ?hlock]
  case hlock =>
    intro hend
    have hdot : '.' ∈ (['d', 'e', 'v', 'b', 'o', 'x', '/'] ++ c0 :: r' : List Char) :=
      listEndsWith_mem _ _ hend (by simp)
    rw [List.mem_append] at hdot
    rcases hdot with hdot | hdot
    · simp at hdot
    · exact safe_ne_dot '.' (hsafe '.' hdot) rfl
  rw [decide_eq_true_eq]
  intro hbad
  rcases hbad with hs | hi | hc
  · have hm : ' ' ∈ (['d', 'e', 'v', 'b', 'o', 'x', '/'] ++ c0 :: r' : List Char) := by
      simpa using hs
    rw [List.mem_append] at hm
    rcases hm with hm | hm
    · simp at hm
    · exact safe_ne_space ' ' (hsafe ' ' hm) rfl
  · rw [List.any_eq_true] at hi
    obtain ⟨c, hm, hcbad⟩ := hi
    have hcp := of_decide_eq_true hcbad
    rw [List.mem_append] at hm
    rcases hm with hm | hm
    · fin_cases hm <;> exact absurd hcp (by decide)
    · exact safe_not_invalid c (hsafe c hm) hcp
  · rw [List.any_eq_true] at hc
    obtain ⟨c, hm, hcbad⟩ := hc
    have hcp := of_decide_eq_true hcbad
    rw [List.mem_append] at hm
    rcases hm with hm | hm
    · fin_cases hm <;> exact absurd hcp (by decide)
    · exact safe_not_control c (hsafe c hm) hcp

/-- Data of a generated package branch name, split at the `devbox/` prefix. -/
theorem generatePackageBranchName_data (packageName targetVersion : String)
    (resolvedVersion : Option String) (today : String) :
    (generatePackageBranchName "devbox" packageName targetVersion
        resolvedVersion today).data =
      ['d', 'e', 'v', 'b', 'o', 'x', '/'] ++
        ((jsToLower (sanitizeBranchPart (beforeFirstAt packageName))).data ++
          '-' :: (sanitizeBranchPart
            (if jsToLower targetVersion = "latest" ∧ resolvedTruthy resolvedVersion
             then resolvedVersion.getD ""
             else if jsToLower targetVersion = "latest" then "latest-" ++ today
             else targetVersion)).data) := by
  unfold generatePackageBranchName
  rw [String.data_append, String.data_append, String.data_append]
  show ((("devbox".data ++ "/".data) ++ _) ++ "-".data) ++ _ = _
  show ((((['d', 'e', 'v', 'b', 'o', 'x'] : List Char) ++ ['/']) ++ _) ++ ['-']) ++ _ = _
  simp [List.append_assoc]

/-- C10: with the branch prefix `"devbox"`, every branch name produced by
`generatePackageBranchName` (for any package name, target version, optional
resolved version and date) and by `generateMultiPackageBranchName` passes
`validateBranchName`. -/
theorem generatedBranchNames_valid (packageName targetVersion : String)
    (resolvedVersion : Option String) (today : String) :
    validateBranchName (generatePackageBranchName "devbox" packageName
      targetVersion resolvedVersion today) = true ∧
    validateBranchName (generateMultiPackageBranchName "devbox") = true := by
  constructor
  · apply validateBranchName_safe_tail _
      ((jsToLower (sanitizeBranchPart (beforeFirstAt packageName))).data ++
        '-' :: (sanitizeBranchPart
          (if jsToLower targetVersion = "latest" ∧ resolvedTruthy resolvedVersion
           then resolvedVersion.getD ""
           else if jsToLower targetVersion = "latest" then "latest-" ++ today
           else targetVersion)).data)
    · exact generatePackageBranchName_data packageName targetVersion
        resolvedVersion today
    · intro c hc
      rw [List.mem_append] at hc
      rcases hc with hm | hm
      · exact clean_chars_safe _ c hm
      · rw [List.mem_cons] at hm
        rcases hm with rfl | hm
        · decide
        · exact sanitize_chars_safe _ c hm
    · simp
  · decide

end DevboxAction
